import Mathlib

/-!
Verification development for the ticket-generation and three-phase
evaluation engine of `lottery_core.py` (the core of the lottery-optimizer
repository).

The Python code is shallowly embedded as executable Lean definitions:

* Python strings are modelled as `List Char` (`PyStr`); the string helpers
  (`strip`, `split`, `replace`, `int(...)`, ...) are re-implemented
  structurally so that every definition reduces inside the kernel.
  `int(...)` is modelled for optionally signed decimal literals (the
  grouping-underscore form of Python literals never occurs in this
  repository's inputs).
* Python exceptions raised while parsing are modelled with
  `Except String`; code that cannot raise is a plain function.
* `random.*` calls are modelled by threading an abstract random source
  `Rng` (a stream of naturals; each draw takes the stream value modulo the
  requested bound).  `random.shuffle` is a Fisher-Yates permutation driven
  by the source, `random.sample` is shuffle-then-take, `random.choice`
  indexes the list by a drawn index, `random.randint(a,b)` draws from the
  closed interval.  Every theorem below quantifies over the whole source,
  so nothing depends on the distribution of the draws.
* File persistence (`_save_json`, the `saved_path` round-trips of
  `run_phase2` / `run_phase3`) is I/O and is modelled away: the phase
  entry points receive the previously saved payload directly.
* `_quantile` is called by the source only with q = 0.25 and q = 0.75;
  for the list sizes and integer sums involved the Python float
  computation `q*(len(s)-1)` and the linear interpolation are exact
  binary fractions with denominator 4, so the embedding carries the
  quantile argument as an exact numerator of quarters (`q4`/4) and
  implements Python 3 `round` (round-half-to-even) on quarters directly
  over `Int`.
-/

/-! ## Python string model -/

abbrev PyStr := List Char

/-- Whitespace characters stripped by Python `str.strip()` (the inputs of
this repository only ever contain these whitespace characters). -/
def isWs (c : Char) : Bool :=
  c = ' ' || c = '\t' || c = '\n' || c = '\r'

/-- Python `s.strip()`. -/
def trimCl (l : PyStr) : PyStr :=
  ((l.dropWhile isWs).reverse.dropWhile isWs).reverse

/-- Python `s.lstrip(t)` for a single-character set. -/
def stripLead (t : Char) (l : PyStr) : PyStr :=
  l.dropWhile (· = t)

/-- Python `s.rstrip(t)` for a single-character set. -/
def stripTrail (t : Char) (l : PyStr) : PyStr :=
  (l.reverse.dropWhile (· = t)).reverse

/-- Python `s.strip(t)` for a single-character set. -/
def stripBoth (t : Char) (l : PyStr) : PyStr :=
  stripTrail t (stripLead t l)

/-- Worker for `splitPred`: scan, accumulating the current token reversed. -/
def splitPredAux (p : Char → Bool) : PyStr → PyStr → List PyStr
  | [], acc => [acc.reverse]
  | c :: rest, acc =>
    if p c then acc.reverse :: splitPredAux p rest []
    else splitPredAux p rest (c :: acc)

/-- Split at every character satisfying `p`, keeping empty tokens
(the semantics of Python `str.split(sep)` for a one-character `sep`). -/
def splitPred (p : Char → Bool) (l : PyStr) : List PyStr :=
  splitPredAux p l []

/-- Python `s.split(t)` for a one-character separator `t`
(also `s.splitlines()` with `t = '\n'`). -/
def splitChar (t : Char) (l : PyStr) : List PyStr :=
  splitPred (· = t) l

/-- Python `s.split()` (split on whitespace runs, dropping empty tokens). -/
def pySplitWs (l : PyStr) : List PyStr :=
  (splitPred isWs l).filter (fun x => !x.isEmpty)

/-- Worker for `breakOnCl`; the fuel starts at the length of the scanned
list, which bounds the number of scan positions. -/
def breakOnAux (sep : PyStr) : Nat → PyStr → Option (PyStr × PyStr)
  | _, [] => none
  | 0, _ => none
  | fuel + 1, c :: rest =>
    if sep.isPrefixOf (c :: rest) then some ([], (c :: rest).drop sep.length)
    else
      match breakOnAux sep fuel rest with
      | none => none
      | some (a, b) => some (c :: a, b)

/-- Locate the first occurrence of `sep`: `some (before, after)` when
`sep` occurs (the semantics of Python `s.split(sep, 1)` after an
`if sep in s` guard), `none` otherwise. -/
def breakOnCl (sep : PyStr) (l : PyStr) : Option (PyStr × PyStr) :=
  breakOnAux sep l.length l

/-- Python `sub in s`. -/
def containsSub (sep : PyStr) (l : PyStr) : Bool :=
  (breakOnCl sep l).isSome

/-- Python `s.lower()` (ASCII inputs only in this repository). -/
def toLowerCl (l : PyStr) : PyStr :=
  l.map Char.toLower

/-- Python `s.startswith(pre)`. -/
def startsWithCl (pre l : PyStr) : Bool :=
  pre.isPrefixOf l

/-- Value of a nonempty all-digit token. -/
def digitsToNat (l : PyStr) : Nat :=
  l.foldl (fun a c => a * 10 + (c.toNat - 48)) 0

/-- Python `int(s)`: strip whitespace, allow one sign, then decimal
digits; anything else raises `ValueError`. -/
def pyInt (l : PyStr) : Except String Int :=
  let t := trimCl l
  match t with
  | [] => .error "ValueError: invalid literal for int"
  | '+' :: ds =>
    if ds.isEmpty then .error "ValueError: invalid literal for int"
    else if ds.all Char.isDigit then .ok (digitsToNat ds)
    else .error "ValueError: invalid literal for int"
  | '-' :: ds =>
    if ds.isEmpty then .error "ValueError: invalid literal for int"
    else if ds.all Char.isDigit then .ok (-(digitsToNat ds : Int))
    else .error "ValueError: invalid literal for int"
  | ds =>
    if ds.all Char.isDigit then .ok (digitsToNat ds)
    else .error "ValueError: invalid literal for int"

/-- `int(x)` over a list, first failure propagating, as in the source's
list comprehensions. -/
def mapPyInt : List PyStr → Except String (List Int)
  | [] => .ok []
  | x :: xs => do
    let v ← pyInt x
    let vs ← mapPyInt xs
    .ok (v :: vs)

/-! ## Parsers (`_parse_latest_pair`, `_parse_hist_blob`, `_parse_feed_lines`) -/

/-- `_parse_latest_pair`: accepts `"[10,14,34,40,43], 5"`,
`"[1,4,5,10,18,49]"` or the parenthesized variants.  The source never
reads its `has_bonus` argument. -/
def _parse_latest_pair (s : String) ( has_bonus : Bool) :
    Except String (List Int × Option Int) :=
  let txt := trimCl s.data
  let txt := txt.map (fun c => if c = '(' then '[' else c)
  let txt := txt.map (fun c => if c = ')' then ']' else c)
  match breakOnCl [']', ','] txt with
  | some (left, right) => do
    let mains_txt := trimCl (stripLead '[' (trimCl left))
    let mains ← mapPyInt
      ((splitChar ',' mains_txt).filter (fun x => !(trimCl x).isEmpty))
    let bonus ← pyInt (trimCl (stripBoth ',' (trimCl right)))
    .ok (mains, some bonus)
  | none => do
    let mains_txt := stripTrail ']' (stripLead '[' (trimCl txt))
    let mains ← mapPyInt
      ((splitChar ',' mains_txt).filter (fun x => !(trimCl x).isEmpty))
    .ok (mains, none)

/-- Worker for `_parse_hist_blob`: the per-line loop. -/
def histLines (hb : Bool) : List PyStr → Except String (List (List Int × Option Int))
  | [] => .ok []
  | line :: rest => do
    let line := trimCl line
    if line.isEmpty then histLines hb rest
    else if hb then do
      let parts := pySplitWs line
      let mains ← mapPyInt (splitChar '-' (parts.headD []))
      let bonus ←
        match parts.drop 1 with
        | [] => Except.error "IndexError: list index out of range"
        | p :: _ => pyInt p
      let out ← histLines hb rest
      .ok ((mains, some bonus) :: out)
    else do
      let mains ← mapPyInt (splitChar '-' line)
      let out ← histLines hb rest
      .ok ((mains, none) :: out)

/-- `_parse_hist_blob`: newline-separated draws `"17-18-21-42-64 07"`,
trailing bonus token when `has_bonus`, keeping only the first 20. -/
def _parse_hist_blob (blob : String) ( has_bonus : Bool) :
    Except String (List (List Int × Option Int)) := do
  let out ← histLines has_bonus (splitChar '\n' (trimCl blob.data))
  .ok (out.take 20)

/-- The dictionary produced by `_parse_feed_lines` (its four keys). -/
structure Feed where
  hot_mains : List Int
  overdue_mains : List Int
  hot_bonus : List Int
  overdue_bonus : List Int

def feedDefault : Feed := ⟨[], [], [], []⟩

/-- Number extraction of `_parse_feed_lines`: text after the colon,
commas to spaces, keep all-digit tokens. -/
def feedExtract (L : PyStr) : List Int :=
  let nums :=
    match breakOnCl [':'] L with
    | some (_, after) => after
    | none => L
  let toks := pySplitWs (nums.map (fun c => if c = ',' then ' ' else c))
  (toks.filter (fun x => !x.isEmpty && x.all Char.isDigit)).map
    (fun x => (digitsToNat x : Int))

/-- Worker for `_parse_feed_lines`: the per-line loop. -/
def feedLines : List PyStr → Feed → Feed
  | [], d => d
  | line :: rest, d =>
    let L := trimCl line
    if L.isEmpty then feedLines rest d
    else
      let low := toLowerCl L
      let d :=
        if startsWithCl ("top 8 hot numbers".data) low then
          { d with hot_mains := feedExtract L }
        else if startsWithCl ("top 8 overdue numbers".data) low then
          { d with overdue_mains := feedExtract L }
        else if containsSub ("mega ball".data) low || containsSub ("power ball".data) low then
          if containsSub ("hot".data) low then { d with hot_bonus := feedExtract L }
          else if containsSub ("overdue".data) low then { d with overdue_bonus := feedExtract L }
          else d
        else d
      feedLines rest d

/-- `_parse_feed_lines`: scan the feed text for the hot/overdue lines.
Starting from the empty dictionary and ending with `setdefault` of the
four keys is modelled by starting from `feedDefault`. -/
def _parse_feed_lines (feed : String) : Feed :=
  feedLines (splitChar '\n' (trimCl feed.data)) feedDefault

/-! ## Bands (`_quantile`, `_sum_band_from_history`, `_bands_from_histories`) -/

/-- Python 3 `round` (round-half-to-even) of the exact value `num/4`,
over the integers. -/
def bankersRoundQuarters (num : Int) : Int :=
  let f := Int.fdiv num 4
  let r := Int.fmod num 4
  if r = 0 then f
  else if r = 1 then f
  else if r = 3 then f + 1
  else if Int.fmod f 2 = 0 then f else f + 1

/-- `_quantile(x, q)` with `q = q4/4` carried exactly (the source only
uses q = 0.25 and q = 0.75, i.e. `q4 = 1` and `q4 = 3`):
`pos = q*(len(s)-1)`, linear interpolation between the two order
statistics around `pos`, rounded like Python `round`. -/
def _quantile (x : List Int) (q4 : Nat) : Int :=
  if x.isEmpty then 0
  else
    let s := List.insertionSort (· ≤ ·) x
    let pos4 := q4 * (x.length - 1)
    let lo := pos4 / 4
    let hi := (pos4 + 3) / 4
    if lo = hi then s.getD lo 0
    else
      bankersRoundQuarters
        ((s.getD lo 0) * 4 + ((s.getD hi 0) - (s.getD lo 0)) * ((pos4 % 4 : Nat) : Int))

/-- `_sum_band_from_history`: middle 50% of historical main sums, or the
supplied default band when the history is empty or the computed band is
degenerate. -/
def _sum_band_from_history (hist : List (List Int)) (default_lo default_hi : Int) :
    Int × Int :=
  if hist.isEmpty then (default_lo, default_hi)
  else
    let sums := hist.map (fun row => row.sum)
    let lo := _quantile sums 1
    let hi := _quantile sums 3
    if hi ≤ lo then (default_lo, default_hi)
    else (lo, hi)

/-- The `{"MM": .., "PB": .., "IL": ..}` dictionary of `_bands_from_histories`. -/
structure Bands where
  MM : Int × Int
  PB : Int × Int
  IL : Int × Int

/-- `_bands_from_histories` with the source's hard-coded per-game defaults. -/
def _bands_from_histories (mm_hist pb_hist il_hist : List (List Int)) : Bands :=
  let mm := _sum_band_from_history mm_hist 158 205
  let pb := _sum_band_from_history pb_hist 149 210
  let il := _sum_band_from_history il_hist 123 158
  ⟨mm, pb, il⟩

/-! ## Game constants -/

def MM_MAIN_MAX : Nat := 70
def MM_MAIN_COUNT : Nat := 5
def MM_BONUS_MAX : Int := 25
def PB_MAIN_MAX : Nat := 69
def PB_MAIN_COUNT : Nat := 5
def PB_BONUS_MAX : Int := 26
def IL_MAIN_MAX : Nat := 50
def IL_MAIN_COUNT : Nat := 6

/-- Python `list(range(1, n+1))` as integers. -/
def intRange (n : Nat) : List Int :=
  (List.range n).map (fun i : Nat => (i : Int) + 1)

/-! ## Pools (`_counts_in_history`, `_lrr_set`, `_undrawn_set`, `_vip_set`) -/

def _flatten (lst : List (List Int)) : List Int := lst.flatten

/-- One `c[n] = c.get(n, 0) + 1` step on an insertion-ordered association
list (the model of a Python dict with integer keys). -/
def bump : List (Int × Nat) → Int → List (Int × Nat)
  | [], n => [(n, 1)]
  | (m, k) :: rest, n =>
    if m = n then (m, k + 1) :: rest else (m, k) :: bump rest n

/-- `_counts_in_history`: occurrence counts, keys in first-seen order. -/
def _counts_in_history (history : List (List Int)) : List (Int × Nat) :=
  history.foldl (fun c row => row.foldl bump c) []

/-- `_lrr_set`: numbers appearing exactly twice in the last 20 draws and
absent from the most recent 5. -/
def _lrr_set (history20 recent5 : List (List Int)) : List Int :=
  let cnt := _counts_in_history history20
  let recent := _flatten recent5
  (cnt.filter (fun p => p.2 = 2 && decide (p.1 ∉ recent))).map (fun p => p.1)

/-- `_undrawn_set`: numbers absent from the most recent 10 draws. -/
def _undrawn_set (all_numbers : List Int) (recent10 : List (List Int)) : List Int :=
  let recent := _flatten recent10
  all_numbers.filter (fun n => decide (n ∉ recent))

/-- `_vip_set`: `sorted(set(hot) & set(overdue))` — the ascending
enumeration of the intersection. -/
def _vip_set (hot overdue : List Int) : List Int :=
  List.insertionSort (· ≤ ·) ((hot.filter (fun n => decide (n ∈ overdue))).dedup)

/-! ## Hit labeling (`_label_hit`) -/

/-- `_label_hit`: `m = len(set(mains) & set(target_mains))`, then the
per-game bucket vocabulary (`"3".."5B"` for MM/PB, `"3".."6"` for IL). -/
def _label_hit (game : String) (mains : List Int) (bonus : Option Int)
    (target_mains : List Int) (target_bonus : Option Int) : Option String :=
  let m := ((mains.dedup).filter (fun n => decide (n ∈ target_mains))).length
  if game = "MM" || game = "PB" then
    let b : Bool :=
      match bonus, target_bonus with
      | some x, some y => x = y
      | _, _ => false
    if m = 5 then some (if b then "5B" else "5")
    else if m = 4 then some (if b then "4B" else "4")
    else if m = 3 then some (if b then "3B" else "3")
    else none
  else if game = "IL" then
    if m = 6 then some "6"
    else if m = 5 then some "5"
    else if m = 4 then some "4"
    else if m = 3 then some "3"
    else none
  else none

/-! ## Random source model -/

/-- Abstract random source: a stream of naturals and a cursor.  A draw
bounded by `n` takes the stream value modulo `n` and advances the cursor. -/
structure Rng where
  bits : Nat → Nat
  idx : Nat

/-- One bounded draw (uniform in `[0, n)` for a uniform stream). -/
def Rng.next (r : Rng) (n : Nat) : Nat × Rng :=
  (if n = 0 then 0 else r.bits r.idx % n, ⟨r.bits, r.idx + 1⟩)

/-- Worker for `shuffleList`; the fuel starts at the list length. -/
def shuffleAux [Inhabited α] : Nat → List α → Rng → List α × Rng
  | 0, l, r => (l, r)
  | fuel + 1, l, r =>
    match l with
    | [] => ([], r)
    | _ :: _ =>
      let jr := r.next l.length
      let x := l.getD jr.1 default
      let tr := shuffleAux fuel (l.eraseIdx jr.1) jr.2
      (x :: tr.1, tr.2)

/-- `random.shuffle(l)`: Fisher-Yates permutation driven by the source. -/
def shuffleList [Inhabited α] (l : List α) (r : Rng) : List α × Rng :=
  shuffleAux l.length l r

/-- `random.sample(l, k)` (call sites always have `k <= len(l)`). -/
def sampleList (l : List Int) (k : Nat) (r : Rng) : List Int × Rng :=
  let sr := shuffleList l r
  (sr.1.take k, sr.2)

/-- `random.choice(l)` (call sites guard against the empty list, on which
Python would raise; the model returns `default`). -/
def choiceList (l : List Int) (r : Rng) : Int × Rng :=
  let jr := r.next l.length
  (l.getD jr.1 default, jr.2)

/-- `random.randint(a, b)` (call sites always have `a <= b`). -/
def randintInt (a b : Int) (r : Rng) : Int × Rng :=
  let xr := r.next (b - a + 1).toNat
  (a + (xr.1 : Int), xr.2)

/-- `random.randrange(n)`. -/
def randrangeNat (n : Nat) (r : Rng) : Nat × Rng :=
  r.next n

/-- `_cap_pool`: keep the pool when small enough, else sample `limit`
elements. -/
def _cap_pool (pool : List Int) (limit : Nat) (r : Rng) : List Int × Rng :=
  if pool.length ≤ limit then (pool, r) else sampleList pool limit r

/-! ## Row generation (`_choose_bonus`, `_make_row_with_pattern`) -/

/-- `_choose_bonus`: prefer the hot/overdue feed bonuses and up to 10
undrawn-in-last-10 bonuses, all filtered to `[1, bonus_max]`; if nothing
remains, draw uniformly from `[1, bonus_max]`. -/
def _choose_bonus (feed_bonus_hot feed_bonus_overdue : List Int) (bonus_max : Int)
    (recent10_bonus : List Int) (r : Rng) : Int × Rng :=
  let undrawn := (intRange bonus_max.toNat).filter (fun n => decide (n ∉ recent10_bonus))
  let cr := _cap_pool undrawn 10 r
  let candidates := feed_bonus_hot ++ feed_bonus_overdue ++ cr.1
  let candidates := candidates.filter (fun n => decide (1 ≤ n ∧ n ≤ bonus_max))
  if candidates.isEmpty then randintInt 1 bonus_max cr.2
  else choiceList candidates cr.2

/-- A sampling pattern `(vip_or_lrr, hot, overdue, undrawn)`. -/
abbrev Pattern := Nat × Nat × Nat × Nat

/-- The five named pools (plus `OTHER`) of `_build_pools_for_game`. -/
structure Pools where
  VIP : List Int
  LRR : List Int
  HOT : List Int
  OVERDUE : List Int
  UNDRAWN : List Int
  OTHER : List Int

/-- Worker for the `while len(uniq) > count_required` trimming loop of
`candidate_cycle`; the fuel starts at the list length. -/
def trimAux : Nat → List Int → Nat → Rng → List Int × Rng
  | 0, l, _, r => (l, r)
  | fuel + 1, l, count, r =>
    if count < l.length then
      let jr := randrangeNat l.length r
      trimAux fuel (l.eraseIdx jr.1) count jr.2
    else (l, r)

def trimToCount (l : List Int) (count : Nat) (r : Rng) : List Int × Rng :=
  trimAux l.length l count r

/-- The inner closure `candidate_cycle` of `_make_row_with_pattern`:
draw from the anchor (VIP, else LRR), hot, overdue and undrawn pools per
the pattern, fill the shortfall from `OTHER`, dedupe/sort/trim to size. -/
def candidate_cycle (pattern : Pattern) (pools : Pools) (count_required : Nat)
    (universe_max : Int) (r : Rng) : List Int × Rng :=
  let k_vl := pattern.1
  let k_hot := pattern.2.1
  let k_over := pattern.2.2.1
  let k_und := pattern.2.2.2
  let anchors0 := if pools.VIP.isEmpty then pools.LRR else pools.VIP
  let ar := shuffleList anchors0 r
  let src_anchor := ar.1.take k_vl
  let hcap := _cap_pool pools.HOT (max 0 (k_hot * 8)) ar.2
  let hr := shuffleList hcap.1 hcap.2
  let src_hot := hr.1.take k_hot
  let ocap := _cap_pool pools.OVERDUE (max 0 (k_over * 8)) hr.2
  let orr := shuffleList ocap.1 ocap.2
  let src_over := orr.1.take k_over
  let ucap := _cap_pool pools.UNDRAWN (max 0 (k_und * 10)) orr.2
  let ur := shuffleList ucap.1 ucap.2
  let src_und := ur.1.take k_und
  let srcs := [src_anchor, src_hot, src_over, src_und]
  let base := srcs.foldl
    (fun b s => b ++ s.filter (fun n => decide (1 ≤ n ∧ n ≤ universe_max))) []
  let need : Int := (count_required : Int) - (base.dedup.length : Int)
  let br : List Int × Rng :=
    if 0 < need then
      let remainder := pools.OTHER.filter (fun n => decide (n ∉ base))
      let rr := shuffleList remainder ur.2
      (base ++ rr.1.take need.toNat, rr.2)
    else (base, ur.2)
  let uniq := List.insertionSort (· ≤ ·)
    ((br.1.filter (fun n => decide (1 ≤ n ∧ n ≤ universe_max))).dedup)
  trimToCount uniq count_required br.2

/-- The `for _ in range(max_tries)` retry loop of `_make_row_with_pattern`. -/
def makeRowLoop (pattern : Pattern) (pools : Pools) (count_required : Nat)
    (sum_band : Int × Int) (universe_max : Int) :
    Nat → Rng → Option (List Int) × Rng
  | 0, r => (none, r)
  | tries + 1, r =>
    let cr := candidate_cycle pattern pools count_required universe_max r
    if cr.1.length ≠ count_required then
      makeRowLoop pattern pools count_required sum_band universe_max tries cr.2
    else
      let s := cr.1.sum
      if decide (sum_band.1 ≤ s ∧ s ≤ sum_band.2) then
        (some (List.insertionSort (· ≤ ·) cr.1), cr.2)
      else makeRowLoop pattern pools count_required sum_band universe_max tries cr.2

/-- `_make_row_with_pattern`: retry `candidate_cycle` until the sum falls
inside the band, giving up (`none`) after `max_tries` attempts.  The
source ignores its `game` argument. -/
def _make_row_with_pattern (game : String) (pattern : Pattern) (pools : Pools)
    (count_required : Nat) (sum_band : Int × Int) (universe_max : Int)
    (max_tries : Nat) (r : Rng) : Option (List Int) × Rng :=
  makeRowLoop pattern pools count_required sum_band universe_max max_tries r

/-- `_build_pools_for_game`. -/
def _build_pools_for_game (game : String) (hist20 : List (List Int)) (feeds : Feed)
    (all_numbers : List Int) : Pools :=
  let recent10 := if 10 ≤ hist20.length then hist20.take 10 else hist20
  let undrawn := _undrawn_set all_numbers recent10
  let recent5 := if 5 ≤ hist20.length then hist20.take 5 else hist20
  let lrr := _lrr_set hist20 recent5
  let hot := feeds.hot_mains
  let overdue := feeds.overdue_mains
  let vip := _vip_set hot overdue
  let used := vip ++ lrr ++ hot ++ overdue ++ undrawn
  let other := all_numbers.filter (fun n => decide (n ∉ used))
  { VIP := vip, LRR := lrr, HOT := hot, OVERDUE := overdue,
    UNDRAWN := undrawn, OTHER := other }

/-- `MM_PB_PATTERNS` (the source lists the nine patterns twice). -/
def MM_PB_PATTERNS : List Pattern :=
  [(1,1,0,3),(1,1,1,2),(1,1,2,1),(1,2,0,2),(1,2,1,1),(1,3,0,1),(1,0,1,3),(1,0,2,2),(1,0,3,1),
   (1,1,0,3),(1,1,1,2),(1,1,2,1),(1,2,0,2),(1,2,1,1),(1,3,0,1),(1,0,1,3),(1,0,2,2),(1,0,3,1)]

/-- `IL_PATTERNS` (two copies of the nineteen-pattern block). -/
def IL_PATTERNS : List Pattern :=
  [(1,1,0,4),(1,1,1,3),(1,1,2,2),(1,1,3,1),(1,2,0,3),(1,2,1,2),(1,2,2,1),(1,2,3,0),
   (1,3,0,2),(1,3,1,1),(1,3,2,0),(1,4,0,1),(1,4,1,0),(1,5,0,0),
   (1,0,1,4),(1,0,2,3),(1,0,3,3),(1,0,4,1),(1,0,5,0)] ++
  [(1,1,0,4),(1,1,1,3),(1,1,2,2),(1,1,3,1),(1,2,0,3),(1,2,1,2),(1,2,2,1),(1,2,3,0),
   (1,3,0,2),(1,3,1,1),(1,3,2,0),(1,4,0,1),(1,4,1,0),(1,5,0,0),
   (1,0,1,4),(1,0,2,3),(1,0,3,3),(1,0,4,1),(1,0,5,0)]

/-! ## State built from Phase-1 inputs -/

/-- The request payload of Phase 1 (`data.get(key, "")`: an absent field
is the empty string). -/
structure Inputs where
  LATEST_MM : String
  LATEST_PB : String
  LATEST_IL_JP : String
  LATEST_IL_M1 : String
  LATEST_IL_M2 : String
  FEED_MM : String
  FEED_PB : String
  FEED_IL : String
  HIST_MM_BLOB : String
  HIST_PB_BLOB : String
  HIST_IL_BLOB : String

/-- The state dictionary built by `_build_state_from_phase1_inputs`. -/
structure LotState where
  LATEST_MM : List Int × Option Int
  LATEST_PB : List Int × Option Int
  LATEST_IL_JP : List Int × Option Int
  LATEST_IL_M1 : List Int × Option Int
  LATEST_IL_M2 : List Int × Option Int
  FEED_MM : Feed
  FEED_PB : Feed
  FEED_IL : Feed
  HIST_MM : List (List Int)
  HIST_PB : List (List Int)
  HIST_IL : List (List Int)
  BANDS : Bands
  POOLS_MM : Pools
  POOLS_PB : Pools
  POOLS_IL : Pools
  RECENT_MM_BONUS : List Int
  RECENT_PB_BONUS : List Int

/-- `_build_state_from_phase1_inputs`: parse the latest draws, feeds and
histories, compute bands and pools.  A Python exception raised by a
parser is the `Except.error` case (caught by `run_phase1`). -/
def _build_state_from_phase1_inputs (data : Inputs) : Except String LotState := do
  let mm_latest ← _parse_latest_pair data.LATEST_MM true
  let pb_latest ← _parse_latest_pair data.LATEST_PB true
  let il_jp_latest ← _parse_latest_pair data.LATEST_IL_JP false
  let il_m1_latest ← _parse_latest_pair data.LATEST_IL_M1 false
  let il_m2_latest ← _parse_latest_pair data.LATEST_IL_M2 false
  let feed_mm := _parse_feed_lines data.FEED_MM
  let feed_pb := _parse_feed_lines data.FEED_PB
  let feed_il := _parse_feed_lines data.FEED_IL
  let mm_hist_pairs ← _parse_hist_blob data.HIST_MM_BLOB true
  let pb_hist_pairs ← _parse_hist_blob data.HIST_PB_BLOB true
  let il_hist_pairs ← _parse_hist_blob data.HIST_IL_BLOB false
  let mm_hist := mm_hist_pairs.map (fun p => p.1)
  let pb_hist := pb_hist_pairs.map (fun p => p.1)
  let il_hist := il_hist_pairs.map (fun p => p.1)
  let bands := _bands_from_histories mm_hist pb_hist il_hist
  let mm_pools := _build_pools_for_game "MM" mm_hist feed_mm (intRange MM_MAIN_MAX)
  let pb_pools := _build_pools_for_game "PB" pb_hist feed_pb (intRange PB_MAIN_MAX)
  let il_pools := _build_pools_for_game "IL" il_hist feed_il (intRange IL_MAIN_MAX)
  let mm_recent_bonus := (mm_hist_pairs.take 10).filterMap (fun p => p.2)
  let pb_recent_bonus := (pb_hist_pairs.take 10).filterMap (fun p => p.2)
  .ok {
    LATEST_MM := mm_latest, LATEST_PB := pb_latest,
    LATEST_IL_JP := il_jp_latest, LATEST_IL_M1 := il_m1_latest,
    LATEST_IL_M2 := il_m2_latest,
    FEED_MM := feed_mm, FEED_PB := feed_pb, FEED_IL := feed_il,
    HIST_MM := mm_hist, HIST_PB := pb_hist, HIST_IL := il_hist,
    BANDS := bands,
    POOLS_MM := mm_pools, POOLS_PB := pb_pools, POOLS_IL := il_pools,
    RECENT_MM_BONUS := mm_recent_bonus, RECENT_PB_BONUS := pb_recent_bonus }

/-- The saved Phase-1 JSON (`{"inputs": data, ...}`); only the `inputs`
field is read when rebuilding state. -/
structure Phase1Saved where
  inputs : Inputs

/-- `rebuild_state_from_phase1`: rebuild state from a saved Phase-1
payload by re-running `_build_state_from_phase1_inputs` on its stored
`inputs` — unchanged, in particular without the Phase-1 targets. -/
def rebuild_state_from_phase1 (p1 : Phase1Saved) : Except String LotState :=
  _build_state_from_phase1_inputs p1.inputs

/-! ## Batch generation (`_generate_batches`) and evaluation -/

/-- One generated row `{"row": i+1, "mains": .., "bonus": .., "sum": ..}`. -/
structure Row where
  row : Nat
  mains : List Int
  bonus : Option Int
  sum : Int

/-- The `{"MM": [...], "PB": [...], "IL": {"JP": .., "M1": .., "M2": ..}}`
dictionary of `_generate_batches`. -/
structure Batches where
  MM : List Row
  PB : List Row
  IL_JP : List Row
  IL_M1 : List Row
  IL_M2 : List Row

/-- The shared `for i in range(50)` row loop of `_generate_batches`:
pattern row, random fallback when pattern generation fails, then the
game's bonus sampler. -/
def genRowsAux (game : String) (patterns : List Pattern) (pools : Pools)
    (count : Nat) (band : Int × Int) (umax : Nat)
    (bonusGen : Rng → Option Int × Rng) :
    Nat → Nat → Rng → List Row × Rng
  | 0, _, r => ([], r)
  | n + 1, i, r =>
    let pat := patterns.getD (i % patterns.length) (0, 0, 0, 0)
    let mr := _make_row_with_pattern game pat pools count band (umax : Int) 50 r
    let mains_r : List Int × Rng :=
      match mr.1 with
      | some m => (m, mr.2)
      | none =>
        let samp := sampleList (intRange umax) count mr.2
        (List.insertionSort (· ≤ ·) samp.1, samp.2)
    let br := bonusGen mains_r.2
    let rest := genRowsAux game patterns pools count band umax bonusGen n (i + 1) br.2
    ({ row := i + 1, mains := mains_r.1, bonus := br.1, sum := mains_r.1.sum } :: rest.1,
      rest.2)

/-- `_generate_batches`: 50 rows for MM, 50 for PB and 50 for each of the
three IL buckets (the IL pattern deck is shuffled once and shared). -/
def _generate_batches (state : LotState) (r : Rng) : Batches × Rng :=
  let bands := state.BANDS
  let mmp := shuffleList MM_PB_PATTERNS r
  let mm := genRowsAux "MM" mmp.1 state.POOLS_MM MM_MAIN_COUNT bands.MM MM_MAIN_MAX
    (fun rr =>
      let br := _choose_bonus state.FEED_MM.hot_bonus state.FEED_MM.overdue_bonus
        MM_BONUS_MAX state.RECENT_MM_BONUS rr
      (some br.1, br.2)) 50 0 mmp.2
  let pbp := shuffleList MM_PB_PATTERNS mm.2
  let pb := genRowsAux "PB" pbp.1 state.POOLS_PB PB_MAIN_COUNT bands.PB PB_MAIN_MAX
    (fun rr =>
      let br := _choose_bonus state.FEED_PB.hot_bonus state.FEED_PB.overdue_bonus
        PB_BONUS_MAX state.RECENT_PB_BONUS rr
      (some br.1, br.2)) 50 0 pbp.2
  let ilp := shuffleList IL_PATTERNS pb.2
  let jp := genRowsAux "IL" ilp.1 state.POOLS_IL IL_MAIN_COUNT bands.IL IL_MAIN_MAX
    (fun rr => (none, rr)) 50 0 ilp.2
  let m1 := genRowsAux "IL" ilp.1 state.POOLS_IL IL_MAIN_COUNT bands.IL IL_MAIN_MAX
    (fun rr => (none, rr)) 50 0 jp.2
  let m2 := genRowsAux "IL" ilp.1 state.POOLS_IL IL_MAIN_COUNT bands.IL IL_MAIN_MAX
    (fun rr => (none, rr)) 50 0 m1.2
  ({ MM := mm.1, PB := pb.1, IL_JP := jp.1, IL_M1 := m1.1, IL_M2 := m2.1 }, m2.2)

/-! ## Evaluation vs targets (`_eval_vs_target`) -/

/-- The six MM/PB buckets (`"3"`, `"3B"`, `"4"`, `"4B"`, `"5"`, `"5B"`;
field `h3B` holds bucket `"3B"`, and so on). -/
structure EvalMMPB where
  h3 : List Nat
  h3B : List Nat
  h4 : List Nat
  h4B : List Nat
  h5 : List Nat
  h5B : List Nat

/-- The four IL buckets (`"3"`..`"6"`). -/
structure EvalIL where
  h3 : List Nat
  h4 : List Nat
  h5 : List Nat
  h6 : List Nat

/-- The whole `eval_dict` of `_eval_vs_target`. -/
structure EvalDict where
  MM : EvalMMPB
  PB : EvalMMPB
  IL_JP : EvalIL
  IL_M1 : EvalIL
  IL_M2 : EvalIL

/-- Row positions whose hit label equals `lbl` (the source appends
`r["row"]` to `eval_dict[..][hit]` while walking the rows in order). -/
def bucketPos (game : String) (rows : List Row) (tm : List Int) (tb : Option Int)
    (lbl : String) : List Nat :=
  (rows.filter (fun rw => _label_hit game rw.mains rw.bonus tm tb == some lbl)).map
    (fun rw => rw.row)

def evalGameMMPB (game : String) (rows : List Row) (t : List Int × Option Int) :
    EvalMMPB :=
  { h3 := bucketPos game rows t.1 t.2 "3", h3B := bucketPos game rows t.1 t.2 "3B",
    h4 := bucketPos game rows t.1 t.2 "4", h4B := bucketPos game rows t.1 t.2 "4B",
    h5 := bucketPos game rows t.1 t.2 "5", h5B := bucketPos game rows t.1 t.2 "5B" }

def evalGameIL (rows : List Row) (target : List Int) : EvalIL :=
  { h3 := bucketPos "IL" rows target none "3", h4 := bucketPos "IL" rows target none "4",
    h5 := bucketPos "IL" rows target none "5", h6 := bucketPos "IL" rows target none "6" }

/-- `_eval_vs_target` (the source also annotates each row dict with its
hit label in place; only the collected positions matter downstream). -/
def _eval_vs_target (state : LotState) (batches : Batches) : EvalDict :=
  { MM := evalGameMMPB "MM" batches.MM state.LATEST_MM,
    PB := evalGameMMPB "PB" batches.PB state.LATEST_PB,
    IL_JP := evalGameIL batches.IL_JP state.LATEST_IL_JP.1,
    IL_M1 := evalGameIL batches.IL_M1 state.LATEST_IL_M1.1,
    IL_M2 := evalGameIL batches.IL_M2 state.LATEST_IL_M2.1 }

def emptyEvalMMPB : EvalMMPB := ⟨[], [], [], [], [], []⟩
def emptyEvalIL : EvalIL := ⟨[], [], [], []⟩
def emptyEvalDict : EvalDict := ⟨emptyEvalMMPB, emptyEvalMMPB, emptyEvalIL, emptyEvalIL, emptyEvalIL⟩
def emptyBatches : Batches := ⟨[], [], [], [], []⟩
def emptyBands : Bands := ⟨(0, 0), (0, 0), (0, 0)⟩

/-! ## Phase 1 (`run_phase1`) -/

/-- The JSON result of `run_phase1` (the `saved_path` / `note` fields are
I/O bookkeeping and are omitted). -/
structure Phase1Result where
  ok : Bool
  error : Option String
  bands : Bands
  eval_vs_NJ : EvalDict
  batches : Batches

/-- `run_phase1`: build state (returning `ok = False` with the exception
name when a parser raises), generate one batch per game, evaluate it
against the parsed latest draws. -/
def run_phase1 (data : Inputs) (r : Rng) : Phase1Result :=
  match _build_state_from_phase1_inputs data with
  | .error e =>
    { ok := false, error := some e, bands := emptyBands,
      eval_vs_NJ := emptyEvalDict, batches := emptyBatches }
  | .ok state =>
    let gb := _generate_batches state r
    { ok := true, error := none, bands := state.BANDS,
      eval_vs_NJ := _eval_vs_target state gb.1, batches := gb.1 }

/-! ## Phase 2 (`run_phase2`) -/

/-- `freq[n] = freq.get(n, 0) + 1` over every main of every row. -/
def bumpRowFreq (f : List (Int × Nat)) (rows : List Row) : List (Int × Nat) :=
  rows.foldl (fun f rw => rw.mains.foldl bump f) f

def appendEvalMMPB (a b : EvalMMPB) : EvalMMPB :=
  ⟨a.h3 ++ b.h3, a.h3B ++ b.h3B, a.h4 ++ b.h4, a.h4B ++ b.h4B, a.h5 ++ b.h5, a.h5B ++ b.h5B⟩

def appendEvalIL (a b : EvalIL) : EvalIL :=
  ⟨a.h3 ++ b.h3, a.h4 ++ b.h4, a.h5 ++ b.h5, a.h6 ++ b.h6⟩

def appendEvalDict (a b : EvalDict) : EvalDict :=
  ⟨appendEvalMMPB a.MM b.MM, appendEvalMMPB a.PB b.PB,
   appendEvalIL a.IL_JP b.IL_JP, appendEvalIL a.IL_M1 b.IL_M1, appendEvalIL a.IL_M2 b.IL_M2⟩

/-- The accumulators of the Phase-2 loop: `agg` plus the three frequency
dictionaries. -/
structure AggState where
  agg : EvalDict
  freq_mm : List (Int × Nat)
  freq_pb : List (Int × Nat)
  freq_il : List (Int × Nat)

/-- The `for _ in range(N_PHASE2_RUNS)` loop of `run_phase2`. -/
def phase2Loop (state : LotState) : Nat → AggState → Rng → AggState × Rng
  | 0, acc, r => (acc, r)
  | n + 1, acc, r =>
    let runs := _generate_batches state r
    let tmp := _eval_vs_target state runs.1
    let agg := appendEvalDict acc.agg tmp
    let fmm := bumpRowFreq acc.freq_mm runs.1.MM
    let fpb := bumpRowFreq acc.freq_pb runs.1.PB
    let fil := bumpRowFreq (bumpRowFreq (bumpRowFreq acc.freq_il runs.1.IL_JP) runs.1.IL_M1)
      runs.1.IL_M2
    phase2Loop state n ⟨agg, fmm, fpb, fil⟩ runs.2

/-- The `while len(res) < take: res += ok` loop of `pick_bonus`; since
each pass appends at least one element of the (guarded nonempty) `ok`,
`take` passes always suffice, so the fuel starts at `take`. -/
def fillAux (ok : List Int) : Nat → List Int → Nat → List Int
  | 0, acc, _ => acc
  | fuel + 1, acc, takeN =>
    if acc.length < takeN then fillAux ok fuel (acc ++ ok) takeN else acc

/-- `[random.randint(1, mx) for _ in range(take)]`. -/
def genRandints (mx : Int) : Nat → Rng → List Int × Rng
  | 0, r => ([], r)
  | n + 1, r =>
    let xr := randintInt 1 mx r
    let rest := genRandints mx n xr.2
    (xr.1 :: rest.1, rest.2)

/-- The inner `pick_bonus` of `run_phase2`: repeat the in-range pool up
to `take` entries, or draw `take` uniform bonuses if the pool is empty. -/
def pick_bonus (pool : List Int) (mx : Int) (takeN : Nat) (r : Rng) :
    List Int × Rng :=
  let ok := pool.filter (fun n => decide (1 ≤ n ∧ n ≤ mx))
  if ok.isEmpty then genRandints mx takeN r
  else ((fillAux ok takeN [] takeN).take takeN, r)

/-- Sort key of `sorted(freq.items(), key=lambda t: (-t[1], t[0]))`. -/
def freqKeyRel (a b : Int × Nat) : Prop :=
  b.2 < a.2 ∨ (a.2 = b.2 ∧ a.1 ≤ b.1)

instance : DecidableRel freqKeyRel := fun a b => by
  unfold freqKeyRel
  infer_instance

def sortFreq (f : List (Int × Nat)) : List (Int × Nat) :=
  List.insertionSort freqKeyRel f

/-- One buy-list ticket. -/
structure Ticket where
  mains : List Int
  bonus : Option Int

/-- One `chunk = nums[i*k:(i+1)*k]` buy row, padded from the shuffled
complement when short, then sorted. -/
def buildBuyMains (nums : List Int) (k : Nat) (mainMax : Nat) (i : Nat) (r : Rng) :
    List Int × Rng :=
  let chunk := (nums.drop (i * k)).take k
  if chunk.length < k then
    let rem := (intRange mainMax).filter (fun x => decide (x ∉ chunk))
    let rr := shuffleList rem r
    (List.insertionSort (· ≤ ·) (chunk ++ rr.1.take (k - chunk.length)), rr.2)
  else (List.insertionSort (· ≤ ·) chunk, r)

/-- The `for i in range(..)` buy-list loops of `run_phase2`. -/
def buildBuyRows (nums : List Int) (k : Nat) (mainMax : Nat) (bonusList : List Int)
    (withBonus : Bool) : Nat → Nat → Rng → List Ticket × Rng
  | 0, _, r => ([], r)
  | n + 1, i, r =>
    let mr := buildBuyMains nums k mainMax i r
    let rest := buildBuyRows nums k mainMax bonusList withBonus n (i + 1) mr.2
    ({ mains := mr.1,
       bonus := if withBonus then some (bonusList.getD i 0) else none } :: rest.1,
      rest.2)

structure BuyLists where
  MM : List Ticket
  PB : List Ticket
  IL : List Ticket

/-- The JSON result of `run_phase2` (minus the I/O `saved_path`/`note`). -/
structure Phase2Result where
  ok : Bool
  bands : Bands
  buy_lists : BuyLists
  agg_hits : EvalDict

/-- The body of `run_phase2` after a successful state rebuild. -/
def phase2FromState (state : LotState) (n_runs : Nat) (r : Rng) : Phase2Result :=
  let lr := phase2Loop state n_runs ⟨emptyEvalDict, [], [], []⟩ r
  let acc := lr.1
  let mm_bonus_pool := state.FEED_MM.hot_bonus ++ state.FEED_MM.overdue_bonus
  let pb_bonus_pool := state.FEED_PB.hot_bonus ++ state.FEED_PB.overdue_bonus
  let mm_nums := (sortFreq acc.freq_mm).map (fun p => p.1)
  let pb_nums := (sortFreq acc.freq_pb).map (fun p => p.1)
  let il_nums := (sortFreq acc.freq_il).map (fun p => p.1)
  let mmb := pick_bonus mm_bonus_pool MM_BONUS_MAX 10 lr.2
  let pbb := pick_bonus pb_bonus_pool PB_BONUS_MAX 10 mmb.2
  let bmm := buildBuyRows mm_nums 5 MM_MAIN_MAX mmb.1 true 10 0 pbb.2
  let bpb := buildBuyRows pb_nums 5 PB_MAIN_MAX pbb.1 true 10 0 bmm.2
  let bil := buildBuyRows il_nums 6 IL_MAIN_MAX [] false 15 0 bpb.2
  { ok := true, bands := state.BANDS,
    buy_lists := ⟨bmm.1, bpb.1, bil.1⟩, agg_hits := lr.1.agg }

/-- `run_phase2` minus the file round-trip: rebuild state from the saved
Phase-1 payload (a parser exception propagates, as in the source, where
only the file read is guarded by `try`), then run `n_runs` simulation
batches and build the buy lists.  `n_runs` models `N_PHASE2_RUNS`. -/
def run_phase2_core (p1 : Phase1Saved) (n_runs : Nat) (r : Rng) :
    Except String Phase2Result :=
  match rebuild_state_from_phase1 p1 with
  | .error e => .error e
  | .ok state => .ok (phase2FromState state n_runs r)

/-! ## Phase 3 (`run_phase3`) -/

/-- The saved Phase-2 JSON as read back by `run_phase3` (only
`buy_lists` is consulted). -/
structure Phase2Saved where
  buy_lists : BuyLists

/-- The optional `nwj` dictionary of `run_phase3`; absent keys default to
`[[], None]`. -/
structure NWJ where
  LATEST_MM : Option (List Int × Option Int)
  LATEST_PB : Option (List Int × Option Int)
  LATEST_IL_JP : Option (List Int × Option Int)
  LATEST_IL_M1 : Option (List Int × Option Int)
  LATEST_IL_M2 : Option (List Int × Option Int)

/-- The targets `run_phase3` scores against: the supplied NWJ draws, or
all-empty targets when no NWJ is given. -/
def phase3Targets (nwj : Option NWJ) :
    (List Int × Option Int) × (List Int × Option Int) × List Int × List Int × List Int :=
  match nwj with
  | some w =>
    (w.LATEST_MM.getD ([], none), w.LATEST_PB.getD ([], none),
      (w.LATEST_IL_JP.getD ([], none)).1, (w.LATEST_IL_M1.getD ([], none)).1,
      (w.LATEST_IL_M2.getD ([], none)).1)
  | none => (([], none), ([], none), [], [], [])

/-- Ticket positions (1-based) whose hit label equals `lbl`, for the
`enumerate(bl, start=1)` loops of `run_phase3`. -/
def bucketPosT (game : String) (ts : List Ticket) (tm : List Int) (tb : Option Int)
    (lbl : String) : List Nat :=
  ((ts.enum).filter (fun p => _label_hit game p.2.mains p.2.bonus tm tb == some lbl)).map
    (fun p => p.1 + 1)

structure Phase3Result where
  ok : Bool
  confirm_hits : EvalDict

/-- `run_phase3` minus the file round-trip: score each buy-list ticket
against the NWJ targets (IL tickets are checked against all three IL
targets).  Always returns `ok = True`. -/
def run_phase3_core (p2 : Phase2Saved) (nwj : Option NWJ) : Phase3Result :=
  let tg := phase3Targets nwj
  { ok := true,
    confirm_hits :=
      { MM :=
          { h3 := bucketPosT "MM" p2.buy_lists.MM tg.1.1 tg.1.2 "3",
            h3B := bucketPosT "MM" p2.buy_lists.MM tg.1.1 tg.1.2 "3B",
            h4 := bucketPosT "MM" p2.buy_lists.MM tg.1.1 tg.1.2 "4",
            h4B := bucketPosT "MM" p2.buy_lists.MM tg.1.1 tg.1.2 "4B",
            h5 := bucketPosT "MM" p2.buy_lists.MM tg.1.1 tg.1.2 "5",
            h5B := bucketPosT "MM" p2.buy_lists.MM tg.1.1 tg.1.2 "5B" },
        PB :=
          { h3 := bucketPosT "PB" p2.buy_lists.PB tg.2.1.1 tg.2.1.2 "3",
            h3B := bucketPosT "PB" p2.buy_lists.PB tg.2.1.1 tg.2.1.2 "3B",
            h4 := bucketPosT "PB" p2.buy_lists.PB tg.2.1.1 tg.2.1.2 "4",
            h4B := bucketPosT "PB" p2.buy_lists.PB tg.2.1.1 tg.2.1.2 "4B",
            h5 := bucketPosT "PB" p2.buy_lists.PB tg.2.1.1 tg.2.1.2 "5",
            h5B := bucketPosT "PB" p2.buy_lists.PB tg.2.1.1 tg.2.1.2 "5B" },
        IL_JP :=
          { h3 := bucketPosT "IL" p2.buy_lists.IL tg.2.2.1 none "3",
            h4 := bucketPosT "IL" p2.buy_lists.IL tg.2.2.1 none "4",
            h5 := bucketPosT "IL" p2.buy_lists.IL tg.2.2.1 none "5",
            h6 := bucketPosT "IL" p2.buy_lists.IL tg.2.2.1 none "6" },
        IL_M1 :=
          { h3 := bucketPosT "IL" p2.buy_lists.IL tg.2.2.2.1 none "3",
            h4 := bucketPosT "IL" p2.buy_lists.IL tg.2.2.2.1 none "4",
            h5 := bucketPosT "IL" p2.buy_lists.IL tg.2.2.2.1 none "5",
            h6 := bucketPosT "IL" p2.buy_lists.IL tg.2.2.2.1 none "6" },
        IL_M2 :=
          { h3 := bucketPosT "IL" p2.buy_lists.IL tg.2.2.2.2 none "3",
            h4 := bucketPosT "IL" p2.buy_lists.IL tg.2.2.2.2 none "4",
            h5 := bucketPosT "IL" p2.buy_lists.IL tg.2.2.2.2 none "5",
            h6 := bucketPosT "IL" p2.buy_lists.IL tg.2.2.2.2 none "6" } } }

/-! ## Spec-side comparison definition for the Phase-2 history claim -/

/-- Modelled from the spec: the spec's Phase-2 description — missing from
the code of `run_phase2`/`rebuild_state_from_phase1` — asks to "prepend
the Phase-1 target into the HistoryWindow (simulating what if this had
already happened) and recompute pools/band"; this variant of
`_build_state_from_phase1_inputs` prepends each game's parsed target
(the JP draw for IL) as the newest history entry, truncating to the
20-draw cap, before computing bands and pools. -/
def _build_state_prepending_targets (data : Inputs) : Except String LotState := do
  let mm_latest ← _parse_latest_pair data.LATEST_MM true
  let pb_latest ← _parse_latest_pair data.LATEST_PB true
  let il_jp_latest ← _parse_latest_pair data.LATEST_IL_JP false
  let il_m1_latest ← _parse_latest_pair data.LATEST_IL_M1 false
  let il_m2_latest ← _parse_latest_pair data.LATEST_IL_M2 false
  let feed_mm := _parse_feed_lines data.FEED_MM
  let feed_pb := _parse_feed_lines data.FEED_PB
  let feed_il := _parse_feed_lines data.FEED_IL
  let mm_hist_pairs ← _parse_hist_blob data.HIST_MM_BLOB true
  let pb_hist_pairs ← _parse_hist_blob data.HIST_PB_BLOB true
  let il_hist_pairs ← _parse_hist_blob data.HIST_IL_BLOB false
  let mm_hist := (mm_latest.1 :: mm_hist_pairs.map (fun p => p.1)).take 20
  let pb_hist := (pb_latest.1 :: pb_hist_pairs.map (fun p => p.1)).take 20
  let il_hist := (il_jp_latest.1 :: il_hist_pairs.map (fun p => p.1)).take 20
  let bands := _bands_from_histories mm_hist pb_hist il_hist
  let mm_pools := _build_pools_for_game "MM" mm_hist feed_mm (intRange MM_MAIN_MAX)
  let pb_pools := _build_pools_for_game "PB" pb_hist feed_pb (intRange PB_MAIN_MAX)
  let il_pools := _build_pools_for_game "IL" il_hist feed_il (intRange IL_MAIN_MAX)
  let mm_recent_bonus := (mm_hist_pairs.take 10).filterMap (fun p => p.2)
  let pb_recent_bonus := (pb_hist_pairs.take 10).filterMap (fun p => p.2)
  .ok {
    LATEST_MM := mm_latest, LATEST_PB := pb_latest,
    LATEST_IL_JP := il_jp_latest, LATEST_IL_M1 := il_m1_latest,
    LATEST_IL_M2 := il_m2_latest,
    FEED_MM := feed_mm, FEED_PB := feed_pb, FEED_IL := feed_il,
    HIST_MM := mm_hist, HIST_PB := pb_hist, HIST_IL := il_hist,
    BANDS := bands,
    POOLS_MM := mm_pools, POOLS_PB := pb_pools, POOLS_IL := il_pools,
    RECENT_MM_BONUS := mm_recent_bonus, RECENT_PB_BONUS := pb_recent_bonus }

/-! ## Concrete inputs used by witnesses and counterexamples -/

/-- A concrete random source (all stream values zero). -/
def rng0 : Rng := ⟨fun _ => 0, 0⟩

/-- A default row for `headD`. -/
def row0 : Row := ⟨0, [], none, 0⟩

/-- The Phase-1 request with every field absent/empty. -/
def emptyInputs : Inputs := ⟨"", "", "", "", "", "", "", "", "", "", ""⟩

/-- A request whose MM latest-draw text cannot be parsed as integers. -/
def badInputs : Inputs := { emptyInputs with LATEST_MM := "[oops" }

/-- A request with an MM target draw and a one-draw MM history. -/
def c1Inputs : Inputs :=
  { emptyInputs with
    LATEST_MM := "[1,2,3,4,5], 6", HIST_MM_BLOB := "10-20-30-40-50 07" }

/-- Pools on which the pattern `(1,0,0,0)` immediately yields the row
`[1,2,3,4,5]`. -/
def c5WitnessPools : Pools := ⟨[1], [], [], [], [], [2, 3, 4, 5]⟩

def emptyPools : Pools := ⟨[], [], [], [], [], []⟩

/-- A state whose MM band `[1,1]` is unsatisfiable by any 5 distinct
positive mains, forcing the random padding fallback for every MM row. -/
def c5BadState : LotState :=
  { LATEST_MM := ([], none), LATEST_PB := ([], none), LATEST_IL_JP := ([], none),
    LATEST_IL_M1 := ([], none), LATEST_IL_M2 := ([], none),
    FEED_MM := feedDefault, FEED_PB := feedDefault, FEED_IL := feedDefault,
    HIST_MM := [], HIST_PB := [], HIST_IL := [],
    BANDS := ⟨(1, 1), (1, 1), (1, 1)⟩,
    POOLS_MM := emptyPools, POOLS_PB := emptyPools, POOLS_IL := emptyPools,
    RECENT_MM_BONUS := [], RECENT_PB_BONUS := [] }

/-- An empty saved Phase-2 payload. -/
def p2Empty : Phase2Saved := ⟨⟨[], [], []⟩⟩

/-- Every buy-list ticket of a Phase-2 result has strictly increasing
mains (vacuously true when the rebuild raised). -/
def phase2BuyStrict : Except String Phase2Result → Prop
  | .error _ => True
  | .ok res =>
      res.buy_lists.MM.Forall (fun t => t.mains.Pairwise (· < ·))
    ∧ res.buy_lists.PB.Forall (fun t => t.mains.Pairwise (· < ·))
    ∧ res.buy_lists.IL.Forall (fun t => t.mains.Pairwise (· < ·))

/-! ## Lemmas about the random primitives -/

theorem Rng.next_lt (r : Rng) {n : Nat} (h : 0 < n) : (r.next n).1 < n := by
  unfold Rng.next
  simp only [Nat.pos_iff_ne_zero.mp h, if_false]
  exact Nat.mod_lt _ h

theorem getD_cons_eraseIdx_perm [Inhabited α] [DecidableEq α] {l : List α} {j : Nat}
    (h : j < l.length) : (l.getD j default :: l.eraseIdx j).Perm l := by
  rw [List.getD_eq_getElem l default h]
  have h1 : (l[j] :: l.eraseIdx j).Perm (l[j] :: l.erase l[j]) :=
    List.Perm.cons _ (List.erase_getElem h).symm
  exact h1.trans (List.perm_cons_erase (List.getElem_mem h)).symm

theorem shuffleAux_perm [Inhabited α] [DecidableEq α] :
    ∀ (fuel : Nat) (l : List α) (r : Rng), ((shuffleAux fuel l r).1).Perm l
  | 0, l, _ => List.Perm.refl l
  | fuel + 1, l, r => by
    match l with
    | [] => exact List.Perm.refl []
    | a :: t =>
      have hlen : 0 < (a :: t).length := by simp
      have hj := r.next_lt hlen
      have ih := shuffleAux_perm fuel ((a :: t).eraseIdx (r.next (a :: t).length).1)
        (r.next (a :: t).length).2
      simp only [shuffleAux]
      exact (ih.cons _).trans (getD_cons_eraseIdx_perm hj)

theorem shuffleList_perm [Inhabited α] [DecidableEq α] (l : List α) (r : Rng) :
    ((shuffleList l r).1).Perm l :=
  shuffleAux_perm l.length l r

theorem sampleList_subset {l : List Int} {k : Nat} {r : Rng} :
    ∀ x ∈ (sampleList l k r).1, x ∈ l := by
  intro x hx
  exact ((shuffleList_perm l r).mem_iff).mp (List.take_subset k _ hx)

theorem sampleList_nodup {l : List Int} {k : Nat} {r : Rng} (hl : l.Nodup) :
    (sampleList l k r).1.Nodup :=
  (List.take_sublist k _).nodup ((shuffleList_perm l r).nodup_iff.mpr hl)

theorem sampleList_length (l : List Int) (k : Nat) (r : Rng) :
    (sampleList l k r).1.length = min k l.length := by
  simp [sampleList, (shuffleList_perm l r).length_eq]

theorem choiceList_mem {l : List Int} (r : Rng) (hl : l ≠ []) :
    (choiceList l r).1 ∈ l := by
  unfold choiceList
  have hlen : 0 < l.length := List.length_pos.mpr hl
  have hj := r.next_lt hlen
  simp only [List.getD_eq_getElem l default hj]
  exact List.getElem_mem hj

theorem randintInt_range {a b : Int} (r : Rng) (h : a ≤ b) :
    a ≤ (randintInt a b r).1 ∧ (randintInt a b r).1 ≤ b := by
  have hn : 0 < (b - a + 1).toNat := by omega
  have hx : (r.next (b - a + 1).toNat).1 < (b - a + 1).toNat := r.next_lt hn
  simp only [randintInt]
  omega

/-! ## List helper lemmas -/

theorem intRange_length (n : Nat) : (intRange n).length = n := by
  unfold intRange
  rw [List.length_map, List.length_range]

theorem intRange_nodup (n : Nat) : (intRange n).Nodup := by
  unfold intRange
  have hf : Function.Injective (fun i : Nat => (i : Int) + 1) := by
    intro i j hij
    simpa using hij
  exact List.Nodup.map hf (List.nodup_range n)

theorem mem_intRange {n : Nat} {x : Int} (hx : x ∈ intRange n) :
    1 ≤ x ∧ x ≤ (n : Int) := by
  simp only [intRange, List.mem_map, List.mem_range] at hx
  obtain ⟨i, hi, rfl⟩ := hx
  omega

theorem pairwise_lt_of_sorted_nodup {l : List Int} (hs : l.Sorted (· ≤ ·))
    (hn : l.Nodup) : l.Pairwise (· < ·) :=
  (hs.and hn).imp (fun h => lt_of_le_of_ne h.1 h.2)

theorem trimAux_sublist : ∀ (fuel : Nat) (l : List Int) (count : Nat) (r : Rng),
    ((trimAux fuel l count r).1).Sublist l
  | 0, l, _, _ => List.Sublist.refl l
  | fuel + 1, l, count, r => by
    unfold trimAux
    split
    · exact (trimAux_sublist fuel _ count _).trans (List.eraseIdx_sublist l _)
    · exact List.Sublist.refl l

theorem trimToCount_sublist (l : List Int) (count : Nat) (r : Rng) :
    ((trimToCount l count r).1).Sublist l :=
  trimAux_sublist l.length l count r

theorem trimAux_length : ∀ (fuel : Nat) (l : List Int) (count : Nat) (r : Rng),
    l.length ≤ fuel → ((trimAux fuel l count r).1).length = min l.length count
  | 0, l, count, _, h => by
    have : l = [] := List.length_eq_zero.mp (Nat.le_zero.mp h)
    subst this
    simp [trimAux]
  | fuel + 1, l, count, r, h => by
    unfold trimAux
    split
    · next hc =>
      have hpos : 0 < l.length := Nat.lt_of_le_of_lt (Nat.zero_le _) hc
      have hj : (randrangeNat l.length r).1 < l.length := r.next_lt hpos
      have hlen : (l.eraseIdx (randrangeNat l.length r).1).length = l.length - 1 := by
        have := List.length_eraseIdx_add_one (l := l) (i := (randrangeNat l.length r).1) hj
        omega
      rw [trimAux_length fuel _ count _ (by omega)]
      omega
    · next hc =>
      exact (by omega : l.length = min l.length count)

theorem trimToCount_length (l : List Int) (count : Nat) (r : Rng) :
    ((trimToCount l count r).1).length = min l.length count :=
  trimAux_length l.length l count r (Nat.le_refl _)

/-! ## Specification of generated candidate rows -/

theorem sort_dedup_filter_spec (ys : List Int) (p : Int → Bool) :
    (List.insertionSort (· ≤ ·) ((ys.filter p).dedup)).Nodup
  ∧ (List.insertionSort (· ≤ ·) ((ys.filter p).dedup)).Sorted (· ≤ ·)
  ∧ ∀ n ∈ List.insertionSort (· ≤ ·) ((ys.filter p).dedup), p n = true := by
  have hperm := List.perm_insertionSort (· ≤ ·) ((ys.filter p).dedup)
  refine ⟨hperm.nodup_iff.mpr (List.nodup_dedup _), List.sorted_insertionSort _ _, ?_⟩
  intro n hn
  have h1 : n ∈ (ys.filter p).dedup := hperm.mem_iff.mp hn
  exact (List.mem_filter.mp (List.mem_dedup.mp h1)).2

theorem trim_sort_spec (ys : List Int) (p : Int → Bool) (count : Nat) (r : Rng) :
    ((trimToCount (List.insertionSort (· ≤ ·) ((ys.filter p).dedup)) count r).1).Nodup
  ∧ ((trimToCount (List.insertionSort (· ≤ ·) ((ys.filter p).dedup)) count r).1).Sorted (· ≤ ·)
  ∧ ∀ n ∈ (trimToCount (List.insertionSort (· ≤ ·) ((ys.filter p).dedup)) count r).1,
      p n = true := by
  obtain ⟨hnd, hst, hmem⟩ := sort_dedup_filter_spec ys p
  have hsub := trimToCount_sublist (List.insertionSort (· ≤ ·) ((ys.filter p).dedup)) count r
  exact ⟨hsub.nodup hnd, List.Pairwise.sublist hsub hst,
    fun n hn => hmem n (hsub.subset hn)⟩

theorem candidate_cycle_spec (pattern : Pattern) (pools : Pools) (count : Nat)
    (umax : Int) (r : Rng) :
    ((candidate_cycle pattern pools count umax r).1).Nodup
  ∧ ((candidate_cycle pattern pools count umax r).1).Sorted (· ≤ ·)
  ∧ ∀ n ∈ (candidate_cycle pattern pools count umax r).1, 1 ≤ n ∧ n ≤ umax := by
  unfold candidate_cycle
  refine ⟨(trim_sort_spec _ _ _ _).1, (trim_sort_spec _ _ _ _).2.1, ?_⟩
  intro n hn
  exact of_decide_eq_true ((trim_sort_spec _ _ _ _).2.2 n hn)

theorem makeRowLoop_some_spec (pattern : Pattern) (pools : Pools) (count : Nat)
    (band : Int × Int) (umax : Int) :
    ∀ (tries : Nat) (r : Rng) (row : List Int),
      (makeRowLoop pattern pools count band umax tries r).1 = some row →
      row.length = count ∧ row.Nodup ∧ row.Sorted (· ≤ ·)
        ∧ (∀ n ∈ row, 1 ≤ n ∧ n ≤ umax) ∧ band.1 ≤ row.sum ∧ row.sum ≤ band.2
  | 0, r, row, h => by simp [makeRowLoop] at h
  | tries + 1, r, row, h => by
    simp only [makeRowLoop] at h
    split at h
    · exact makeRowLoop_some_spec pattern pools count band umax tries _ row h
    · next hlen =>
      split at h
      · next hband =>
        simp only [Option.some.injEq] at h
        obtain ⟨hnd, hst, hmem⟩ := candidate_cycle_spec pattern pools count umax r
        have hperm :=
          List.perm_insertionSort (· ≤ ·) (candidate_cycle pattern pools count umax r).1
        have hcl : (candidate_cycle pattern pools count umax r).1.length = count :=
          Decidable.not_not.mp hlen
        have hb := of_decide_eq_true hband
        subst h
        refine ⟨hperm.length_eq.trans hcl, hperm.nodup_iff.mpr hnd,
          List.sorted_insertionSort _ _, ?_, ?_, ?_⟩
        · intro n hn
          exact hmem n (hperm.mem_iff.mp hn)
        · rw [hperm.sum_eq]
          exact hb.1
        · rw [hperm.sum_eq]
          exact hb.2
      · exact makeRowLoop_some_spec pattern pools count band umax tries _ row h

theorem _make_row_with_pattern_some_spec (game : String) (pattern : Pattern)
    (pools : Pools) (count : Nat) (band : Int × Int) (umax : Int) (tries : Nat)
    (r : Rng) (row : List Int)
    (h : (_make_row_with_pattern game pattern pools count band umax tries r).1 = some row) :
    row.length = count ∧ row.Nodup ∧ row.Sorted (· ≤ ·)
      ∧ (∀ n ∈ row, 1 ≤ n ∧ n ≤ umax) ∧ band.1 ≤ row.sum ∧ row.sum ≤ band.2 :=
  makeRowLoop_some_spec pattern pools count band umax tries r row h

theorem _choose_bonus_range (fh fo : List Int) (mx : Int) (rb : List Int) (r : Rng)
    (hmx : 1 ≤ mx) :
    1 ≤ (_choose_bonus fh fo mx rb r).1 ∧ (_choose_bonus fh fo mx rb r).1 ≤ mx := by
  simp only [_choose_bonus]
  split
  · exact randintInt_range _ hmx
  · next hne =>
    have hx := choiceList_mem (l :=
      (fh ++ fo ++ (_cap_pool ((intRange mx.toNat).filter
          (fun n => decide (n ∉ rb))) 10 r).1).filter
        (fun n => decide (1 ≤ n ∧ n ≤ mx)))
      (_cap_pool ((intRange mx.toNat).filter (fun n => decide (n ∉ rb))) 10 r).2
      (by
        intro hnil
        exact hne (by rw [hnil]; rfl))
    exact of_decide_eq_true (List.mem_filter.mp hx).2

/-! ## Specification of generated batches -/

theorem genRowsAux_length (game : String) (patterns : List Pattern) (pools : Pools)
    (count : Nat) (band : Int × Int) (umax : Nat) (bonusGen : Rng → Option Int × Rng) :
    ∀ (n i : Nat) (r : Rng),
      ((genRowsAux game patterns pools count band umax bonusGen n i r).1).length = n
  | 0, _, _ => rfl
  | n + 1, i, r => by
    simp only [genRowsAux]
    rw [List.length_cons,
      genRowsAux_length game patterns pools count band umax bonusGen n (i + 1)]

theorem genRowsAux_forall (game : String) (patterns : List Pattern) (pools : Pools)
    (count : Nat) (band : Int × Int) (umax : Nat) (bonusGen : Rng → Option Int × Rng)
    (hcu : count ≤ umax)
    (Pb : Option Int → Prop) (hb : ∀ rr : Rng, Pb (bonusGen rr).1) :
    ∀ (n i : Nat) (r : Rng),
      ((genRowsAux game patterns pools count band umax bonusGen n i r).1).Forall
        (fun rw => rw.mains.length = count ∧ rw.mains.Nodup
          ∧ rw.mains.Pairwise (· < ·)
          ∧ (∀ x ∈ rw.mains, 1 ≤ x ∧ x ≤ (umax : Int)) ∧ Pb rw.bonus)
  | 0, _, _ => trivial
  | n + 1, i, r => by
    rw [genRowsAux, List.forall_cons]
    refine ⟨?_, genRowsAux_forall game patterns pools count band umax bonusGen hcu
      Pb hb n (i + 1) _⟩
    simp only
    cases hmr : (_make_row_with_pattern game (patterns.getD (i % patterns.length) (0, 0, 0, 0))
        pools count band (umax : Int) 50 r).1 with
    | some m =>
      simp only [hmr]
      obtain ⟨h1, h2, h3, h4, _, _⟩ :=
        _make_row_with_pattern_some_spec _ _ _ _ _ _ _ _ _ hmr
      exact ⟨h1, h2, pairwise_lt_of_sorted_nodup h3 h2, h4, hb _⟩
    | none =>
      simp only [hmr]
      have hperm := List.perm_insertionSort (· ≤ ·)
        (sampleList (intRange umax) count
          (_make_row_with_pattern game (patterns.getD (i % patterns.length) (0, 0, 0, 0))
            pools count band (umax : Int) 50 r).2).1
      have hnd : (sampleList (intRange umax) count
          (_make_row_with_pattern game (patterns.getD (i % patterns.length) (0, 0, 0, 0))
            pools count band (umax : Int) 50 r).2).1.Nodup :=
        sampleList_nodup (intRange_nodup umax)
      have hlen : (sampleList (intRange umax) count
          (_make_row_with_pattern game (patterns.getD (i % patterns.length) (0, 0, 0, 0))
            pools count band (umax : Int) 50 r).2).1.length = count := by
        rw [sampleList_length, intRange_length]
        omega
      refine ⟨hperm.length_eq.trans hlen, hperm.nodup_iff.mpr hnd,
        pairwise_lt_of_sorted_nodup (List.sorted_insertionSort _ _)
          (hperm.nodup_iff.mpr hnd), ?_, hb _⟩
      intro x hx
      exact mem_intRange (sampleList_subset x (hperm.mem_iff.mp hx))

/-! ## Scoring against empty targets -/

theorem _label_hit_nil_target (g : String) (mains : List Int) (bonus tb : Option Int) :
    _label_hit g mains bonus [] tb = none := by
  simp only [_label_hit]
  simp

theorem bucketPos_nil_target (g : String) (rows : List Row) (tb : Option Int)
    (lbl : String) : bucketPos g rows [] tb lbl = [] := by
  unfold bucketPos
  have h : ∀ rw : Row, (_label_hit g rw.mains rw.bonus [] tb == some lbl) = false := by
    intro rw
    rw [_label_hit_nil_target]
    rfl
  simp [h]

theorem eval_empty_targets (s : LotState) (bt : Batches)
    (h1 : s.LATEST_MM = ([], none)) (h2 : s.LATEST_PB = ([], none))
    (h3 : s.LATEST_IL_JP = ([], none)) (h4 : s.LATEST_IL_M1 = ([], none))
    (h5 : s.LATEST_IL_M2 = ([], none)) :
    _eval_vs_target s bt = emptyEvalDict := by
  unfold _eval_vs_target evalGameMMPB evalGameIL emptyEvalDict emptyEvalMMPB emptyEvalIL
  rw [h1, h2, h3, h4, h5]
  simp [bucketPos_nil_target]

/-! ## Frequency dictionaries have distinct keys -/

theorem bump_keys_mem {f : List (Int × Nat)} {n a : Int}
    (h : a ∈ (bump f n).map Prod.fst) : a ∈ f.map Prod.fst ∨ a = n := by
  induction f with
  | nil => simpa [bump] using h
  | cons p rest ih =>
    obtain ⟨m, k⟩ := p
    rw [bump] at h
    split at h
    · exact Or.inl h
    · rcases List.mem_cons.mp h with h | h
      · exact Or.inl (List.mem_cons.mpr (Or.inl h))
      · rcases ih h with h | h
        · exact Or.inl (List.mem_cons.mpr (Or.inr h))
        · exact Or.inr h

theorem bump_keys_nodup {f : List (Int × Nat)} (hf : (f.map Prod.fst).Nodup) (n : Int) :
    ((bump f n).map Prod.fst).Nodup := by
  induction f with
  | nil => simp [bump]
  | cons p rest ih =>
    obtain ⟨m, k⟩ := p
    simp only [List.map_cons, List.nodup_cons] at hf
    rw [bump]
    split
    · next hmn =>
      simp only [List.map_cons, List.nodup_cons]
      exact ⟨hf.1, hf.2⟩
    · next hmn =>
      simp only [List.map_cons, List.nodup_cons]
      refine ⟨?_, ih hf.2⟩
      intro hmem
      rcases bump_keys_mem hmem with h | h
      · exact hf.1 h
      · exact hmn h

theorem foldl_bump_keys_nodup : ∀ (xs : List Int) (f : List (Int × Nat)),
    (f.map Prod.fst).Nodup → ((xs.foldl bump f).map Prod.fst).Nodup
  | [], _, hf => hf
  | x :: xs, f, hf => foldl_bump_keys_nodup xs (bump f x) (bump_keys_nodup hf x)

theorem foldl_rows_keys_nodup : ∀ (rows : List Row) (f : List (Int × Nat)),
    (f.map Prod.fst).Nodup →
    ((rows.foldl (fun f rw => rw.mains.foldl bump f) f).map Prod.fst).Nodup
  | [], _, hf => hf
  | rw :: rest, f, hf =>
    foldl_rows_keys_nodup rest _ (foldl_bump_keys_nodup rw.mains f hf)

theorem bumpRowFreq_keys_nodup (f : List (Int × Nat)) (rows : List Row)
    (hf : (f.map Prod.fst).Nodup) : ((bumpRowFreq f rows).map Prod.fst).Nodup :=
  foldl_rows_keys_nodup rows f hf

theorem phase2Loop_succ (state : LotState) (n : Nat) (acc : AggState) (r : Rng) :
    phase2Loop state (n + 1) acc r =
      phase2Loop state n
        ⟨appendEvalDict acc.agg (_eval_vs_target state (_generate_batches state r).1),
         bumpRowFreq acc.freq_mm (_generate_batches state r).1.MM,
         bumpRowFreq acc.freq_pb (_generate_batches state r).1.PB,
         bumpRowFreq (bumpRowFreq (bumpRowFreq acc.freq_il (_generate_batches state r).1.IL_JP)
           (_generate_batches state r).1.IL_M1) (_generate_batches state r).1.IL_M2⟩
        (_generate_batches state r).2 := rfl

theorem phase2Loop_keys_nodup (state : LotState) : ∀ (n : Nat) (acc : AggState) (r : Rng),
    (acc.freq_mm.map Prod.fst).Nodup → (acc.freq_pb.map Prod.fst).Nodup →
    (acc.freq_il.map Prod.fst).Nodup →
    (((phase2Loop state n acc r).1.freq_mm.map Prod.fst).Nodup
      ∧ ((phase2Loop state n acc r).1.freq_pb.map Prod.fst).Nodup
      ∧ ((phase2Loop state n acc r).1.freq_il.map Prod.fst).Nodup)
  | 0, _, _, h1, h2, h3 => ⟨h1, h2, h3⟩
  | n + 1, acc, r, h1, h2, h3 => by
    rw [phase2Loop_succ]
    generalize (_generate_batches state r) = gb
    exact phase2Loop_keys_nodup state n _ _
      (bumpRowFreq_keys_nodup _ _ h1)
      (bumpRowFreq_keys_nodup _ _ h2)
      (bumpRowFreq_keys_nodup _ _
        (bumpRowFreq_keys_nodup _ _ (bumpRowFreq_keys_nodup _ _ h3)))

/-! ## Buy-list rows are strictly increasing -/

theorem buildBuyMains_pairwise {nums : List Int} (hn : nums.Nodup) (k mainMax i : Nat)
    (r : Rng) : ((buildBuyMains nums k mainMax i r).1).Pairwise (· < ·) := by
  simp only [buildBuyMains]
  have hcnd : ((nums.drop (i * k)).take k).Nodup :=
    ((List.take_sublist _ _).trans (List.drop_sublist _ _)).nodup hn
  split
  · next hshort =>
    have hrem := shuffleList_perm
      ((intRange mainMax).filter (fun x => decide (x ∉ (nums.drop (i * k)).take k))) r
    have hremnd := hrem.nodup_iff.mpr ((intRange_nodup mainMax).filter _)
    have htaknd := (List.take_sublist (k - ((nums.drop (i * k)).take k).length) _).nodup hremnd
    have happ : (((nums.drop (i * k)).take k) ++
        ((shuffleList ((intRange mainMax).filter
          (fun x => decide (x ∉ (nums.drop (i * k)).take k))) r).1).take
            (k - ((nums.drop (i * k)).take k).length)).Nodup := by
      refine List.Nodup.append hcnd htaknd ?_
      intro a ha hmem
      have hin : a ∈ (intRange mainMax).filter
          (fun x => decide (x ∉ (nums.drop (i * k)).take k)) :=
        hrem.mem_iff.mp (List.take_subset _ _ hmem)
      exact (of_decide_eq_true (List.mem_filter.mp hin).2) ha
    have hperm := List.perm_insertionSort (· ≤ ·)
      (((nums.drop (i * k)).take k) ++
        ((shuffleList ((intRange mainMax).filter
          (fun x => decide (x ∉ (nums.drop (i * k)).take k))) r).1).take
            (k - ((nums.drop (i * k)).take k).length))
    exact pairwise_lt_of_sorted_nodup (List.sorted_insertionSort _ _)
      (hperm.nodup_iff.mpr happ)
  · next hlong =>
    have hperm := List.perm_insertionSort (· ≤ ·) ((nums.drop (i * k)).take k)
    exact pairwise_lt_of_sorted_nodup (List.sorted_insertionSort _ _)
      (hperm.nodup_iff.mpr hcnd)

theorem buildBuyRows_forall {nums : List Int} (hn : nums.Nodup) (k mainMax : Nat)
    (bonusList : List Int) (withBonus : Bool) :
    ∀ (n i : Nat) (r : Rng),
      ((buildBuyRows nums k mainMax bonusList withBonus n i r).1).Forall
        (fun t => t.mains.Pairwise (· < ·))
  | 0, _, _ => trivial
  | n + 1, i, r => by
    rw [buildBuyRows, List.forall_cons]
    exact ⟨buildBuyMains_pairwise hn k mainMax i r,
      buildBuyRows_forall hn k mainMax bonusList withBonus n (i + 1) _⟩

theorem phase2FromState_buy_pairwise (state : LotState) (n : Nat) (r : Rng) :
    ((phase2FromState state n r).buy_lists.MM).Forall (fun t => t.mains.Pairwise (· < ·))
  ∧ ((phase2FromState state n r).buy_lists.PB).Forall (fun t => t.mains.Pairwise (· < ·))
  ∧ ((phase2FromState state n r).buy_lists.IL).Forall (fun t => t.mains.Pairwise (· < ·)) := by
  obtain ⟨k1, k2, k3⟩ := phase2Loop_keys_nodup state n ⟨emptyEvalDict, [], [], []⟩ r
    (by simp) (by simp) (by simp)
  have p1 : (((sortFreq (phase2Loop state n ⟨emptyEvalDict, [], [], []⟩ r).1.freq_mm).map
      (fun p => p.1)) : List Int).Nodup :=
    (((List.perm_insertionSort freqKeyRel _).map Prod.fst).nodup_iff).mpr k1
  have p2 : (((sortFreq (phase2Loop state n ⟨emptyEvalDict, [], [], []⟩ r).1.freq_pb).map
      (fun p => p.1)) : List Int).Nodup :=
    (((List.perm_insertionSort freqKeyRel _).map Prod.fst).nodup_iff).mpr k2
  have p3 : (((sortFreq (phase2Loop state n ⟨emptyEvalDict, [], [], []⟩ r).1.freq_il).map
      (fun p => p.1)) : List Int).Nodup :=
    (((List.perm_insertionSort freqKeyRel _).map Prod.fst).nodup_iff).mpr k3
  exact ⟨buildBuyRows_forall p1 5 MM_MAIN_MAX _ true 10 0 _,
    buildBuyRows_forall p2 5 PB_MAIN_MAX _ true 10 0 _,
    buildBuyRows_forall p3 6 IL_MAIN_MAX _ false 15 0 _⟩

/-! ## Band lemmas -/

theorem _sum_band_le (hist : List (List Int)) {dlo dhi : Int} (hd : dlo ≤ dhi) :
    (_sum_band_from_history hist dlo dhi).1 ≤ (_sum_band_from_history hist dlo dhi).2 := by
  simp only [_sum_band_from_history]
  split
  · exact hd
  · split
    · exact hd
    · next h => exact le_of_lt (not_le.mp h)

theorem _sum_band_default_of_degenerate (hist : List (List Int)) (dlo dhi : Int)
    (hdeg : _quantile (hist.map (fun row => row.sum)) 3
      ≤ _quantile (hist.map (fun row => row.sum)) 1) :
    _sum_band_from_history hist dlo dhi = (dlo, dhi) := by
  simp only [_sum_band_from_history]
  split
  · rfl
  · rfl

/-! ## Phase-2 buy lists through the `Except` wrapper -/

theorem run_phase2_core_buy_strict (p1 : Phase1Saved) (n : Nat) (r : Rng) :
    phase2BuyStrict (run_phase2_core p1 n r) := by
  unfold run_phase2_core
  cases hcase : rebuild_state_from_phase1 p1 with
  | error e =>
    simp only [hcase]
    exact trivial
  | ok s =>
    simp only [hcase]
    exact phase2FromState_buy_pairwise s n r

/-! ## The claims -/

/-- C1 (corrected).  The claim says Phase 2 prepends the Phase-1 target
into the history and recomputes pools/band from the extended history.
In the code `rebuild_state_from_phase1` re-runs
`_build_state_from_phase1_inputs` on the stored inputs unchanged, so the
bands (and pools, being fields of the same state) used inside the
Phase-2 loop are exactly the Phase-1 ones, computed without the target. -/
theorem c1_phase2_reuses_phase1_state (d : Inputs) (n : Nat) (r : Rng) :
    rebuild_state_from_phase1 ⟨d⟩ = _build_state_from_phase1_inputs d
  ∧ (run_phase2_core ⟨d⟩ n r).map Phase2Result.bands
      = (_build_state_from_phase1_inputs d).map LotState.BANDS := by
  refine ⟨rfl, ?_⟩
  cases h : _build_state_from_phase1_inputs d with
  | error e => simp [run_phase2_core, rebuild_state_from_phase1, h, Except.map]
  | ok s =>
    simp only [run_phase2_core, rebuild_state_from_phase1, h, Except.map]
    rfl

/-- C1 counterexample.  With the target `[1,2,3,4,5]` and the one-draw
history `[10,20,30,40,50]`, the state Phase 2 rebuilds has the history
without the target (so its MM band is the default `(158, 205)`), while
the spec-described target-prepended state computes the percentile band
`(49, 116)` from `[15, 150]`; the two bands differ, so the Phase-2
pools/band are not derived from a history headed by the target. -/
theorem c1_counterexample :
    (rebuild_state_from_phase1 ⟨c1Inputs⟩).map (fun s => (s.HIST_MM, s.BANDS.MM))
      = .ok ([[10, 20, 30, 40, 50]], (158, 205))
  ∧ (_build_state_prepending_targets c1Inputs).map (fun s => (s.HIST_MM, s.BANDS.MM))
      = .ok ([[1, 2, 3, 4, 5], [10, 20, 30, 40, 50]], (49, 116))
  ∧ ((158, 205) : Int × Int) ≠ ((49, 116) : Int × Int) :=
  ⟨rfl, rfl, by decide⟩

/-- C3 (corrected, amended).  The band estimator does not fall back to
the default for every history of fewer than 8 draws: it falls back only
for an empty history or a degenerate computed band.  Amended claim: for
any non-empty history whose computed 25th percentile of main sums is
strictly below the 75th, the estimator returns the percentile band —
regardless of the number of draws, in particular also for fewer than 8. -/
theorem c3_percentile_band_despite_short_history (hist : List (List Int))
    (dlo dhi : Int) (h1 : hist ≠ [])
    (h2 : _quantile (hist.map (fun row => row.sum)) 1
      < _quantile (hist.map (fun row => row.sum)) 3) :
    _sum_band_from_history hist dlo dhi =
      (_quantile (hist.map (fun row => row.sum)) 1,
       _quantile (hist.map (fun row => row.sum)) 3) := by
  simp only [_sum_band_from_history]
  rw [if_neg (by simpa using h1), if_neg (not_le.mpr h2)]

/-- C3 witness: the two-draw history `[[1,2,3],[10,20,30]]` (sums 6 and
60) is non-empty with a non-degenerate computed band, and the estimator
returns the percentile band, not the default. -/
theorem c3_witness :
    ([[1, 2, 3], [10, 20, 30]] : List (List Int)) ≠ []
  ∧ _quantile (([[1, 2, 3], [10, 20, 30]] : List (List Int)).map (fun row => row.sum)) 1
      < _quantile (([[1, 2, 3], [10, 20, 30]] : List (List Int)).map (fun row => row.sum)) 3
  ∧ _sum_band_from_history [[1, 2, 3], [10, 20, 30]] 158 205 =
      (_quantile (([[1, 2, 3], [10, 20, 30]] : List (List Int)).map (fun row => row.sum)) 1,
       _quantile (([[1, 2, 3], [10, 20, 30]] : List (List Int)).map (fun row => row.sum)) 3) :=
  ⟨by decide, by decide,
    c3_percentile_band_despite_short_history [[1, 2, 3], [10, 20, 30]] 158 205
      (by decide) (by decide)⟩

/-- C3 counterexample: a history with 2 draws (at least one, fewer than
8) for which the estimator returns the percentile band `(20, 46)` and
not the MM hard-coded default `(158, 205)`. -/
theorem c3_counterexample :
    1 ≤ ([[1, 2, 3], [10, 20, 30]] : List (List Int)).length
  ∧ ([[1, 2, 3], [10, 20, 30]] : List (List Int)).length < 8
  ∧ (_bands_from_histories [[1, 2, 3], [10, 20, 30]] [] []).MM = (20, 46)
  ∧ ((20, 46) : Int × Int) ≠ ((158, 205) : Int × Int) :=
  ⟨by decide, by decide, rfl, by decide⟩

/-- C7 (confirmed).  For every history (empty or not) the three
per-game bands of `_bands_from_histories` satisfy `lo <= hi` (their
hard-coded defaults do), and generally, whenever the computed
25th/75th-percentile band would be degenerate (`lo >= hi`, i.e.
`q75 <= q25`), `_sum_band_from_history` returns the supplied default
band, whose `lo <= hi` transfers to the result. -/
theorem c7_band_invariant (mm pb il hist : List (List Int)) (dlo dhi : Int)
    (hd : dlo ≤ dhi)
    (hdeg : _quantile (hist.map (fun row => row.sum)) 3
      ≤ _quantile (hist.map (fun row => row.sum)) 1) :
    ((_bands_from_histories mm pb il).MM.1 ≤ (_bands_from_histories mm pb il).MM.2
      ∧ (_bands_from_histories mm pb il).PB.1 ≤ (_bands_from_histories mm pb il).PB.2
      ∧ (_bands_from_histories mm pb il).IL.1 ≤ (_bands_from_histories mm pb il).IL.2)
  ∧ (_sum_band_from_history hist dlo dhi).1 ≤ (_sum_band_from_history hist dlo dhi).2
  ∧ _sum_band_from_history hist dlo dhi = (dlo, dhi) := by
  refine ⟨⟨?_, ?_, ?_⟩, _sum_band_le hist hd, _sum_band_default_of_degenerate hist dlo dhi hdeg⟩
  · exact _sum_band_le mm (by decide)
  · exact _sum_band_le pb (by decide)
  · exact _sum_band_le il (by decide)

/-- C7 witness: the one-draw history `[[5]]` has a degenerate computed
band (both percentiles are 5), so the estimator returns the default
`(158, 205)`, and the bands of `_bands_from_histories` satisfy the
invariant. -/
theorem c7_witness :
    (158 : Int) ≤ 205
  ∧ _quantile (([[5]] : List (List Int)).map (fun row => row.sum)) 3
      ≤ _quantile (([[5]] : List (List Int)).map (fun row => row.sum)) 1
  ∧ (_bands_from_histories [] [] []).MM.1 ≤ (_bands_from_histories [] [] []).MM.2
  ∧ _sum_band_from_history [[5]] 158 205 = (158, 205) := by
  have h := c7_band_invariant [] [] [] [[5]] 158 205 (by decide) (by decide)
  exact ⟨by decide, by decide, h.1.1, h.2.2⟩

/-- C8 counterexample: the source's bucket label for four matching mains
plus a matching bonus is the string `"4B"`, not `"4+Bonus"`, so the
scenario's scoring result differs from the claimed literal. -/
theorem c8_counterexample :
    _label_hit "MM" [10, 14, 34, 41, 43] (some 5) [10, 14, 34, 40, 43] (some 5)
      ≠ some "4+Bonus" := by decide

/-- C8 (corrected, amended).  In the scenario of the claim (MM target
`[10,14,34,40,43]` with bonus 5, ticket `[10,14,34,41,43]` with bonus
5), the scorer returns the four-plus-bonus bucket, which the source
labels `"4B"` (the spec writes the same bucket `"4+Bonus"`). -/
theorem c8_score_4B :
    _label_hit "MM" [10, 14, 34, 41, 43] (some 5) [10, 14, 34, 40, 43] (some 5)
      = some "4B" := by decide

/-- C2 counterexample: Phase 1 invoked with every `LATEST_*` field
absent (empty) completes with `ok = True`, and Phase 3 invoked with no
new-jackpot draw also completes with `ok = True`; neither phase fails
outright. -/
theorem c2_counterexample :
    (run_phase1 emptyInputs rng0).ok = true
  ∧ (run_phase3_core p2Empty none).ok = true :=
  ⟨rfl, rfl⟩

/-- C2 (corrected, amended).  A missing or empty `LATEST_*` field parses
to the empty target `([], None)` rather than raising, so Phase 1
completes with `ok = True`; Phase 1 returns an error result only when a
field fails integer parsing (`ValueError`), as with `"[oops"`; and
Phase 3 invoked without a new-jackpot draw always completes with
`ok = True`, scoring against empty targets. -/
theorem c2_missing_target_tolerated (b : Bool) (r r2 : Rng) (p2 : Phase2Saved)
    (nwj : Option NWJ) :
    _parse_latest_pair "" b = .ok ([], none)
  ∧ (run_phase1 emptyInputs r).ok = true
  ∧ (run_phase1 badInputs r2).ok = false
  ∧ (run_phase3_core p2 nwj).ok = true :=
  ⟨rfl, rfl, rfl, rfl⟩

/-- C9 (confirmed).  Parsing an empty or missing latest-draw string
returns `([], None)` rather than raising; `run_phase1` invoked with all
`LATEST_*` fields empty completes with `ok = True`; and since every
comparison against an empty target yields no hit, the evaluation
dictionary is entirely empty. -/
theorem c9_empty_latest_ok_no_hits (b : Bool) (r : Rng) :
    _parse_latest_pair "" b = .ok ([], none)
  ∧ (run_phase1 emptyInputs r).ok = true
  ∧ (run_phase1 emptyInputs r).eval_vs_NJ = emptyEvalDict := by
  have hok : ∃ s, _build_state_from_phase1_inputs emptyInputs = .ok s := ⟨_, rfl⟩
  obtain ⟨s, hs⟩ := hok
  have ht : (Except.map
      (fun t : LotState => (t.LATEST_MM, t.LATEST_PB, t.LATEST_IL_JP,
        t.LATEST_IL_M1, t.LATEST_IL_M2))
      (_build_state_from_phase1_inputs emptyInputs))
      = .ok ((([] : List Int), (none : Option Int)), (([] : List Int), (none : Option Int)),
        (([] : List Int), (none : Option Int)), (([] : List Int), (none : Option Int)),
        (([] : List Int), (none : Option Int))) := rfl
  rw [hs] at ht
  simp only [Except.map, Except.ok.injEq, Prod.mk.injEq] at ht
  refine ⟨rfl, ?_, ?_⟩
  · simp [run_phase1, hs]
  · simp only [run_phase1, hs]
    exact eval_empty_targets s _ ht.1 ht.2.1 ht.2.2.1 ht.2.2.2.1 ht.2.2.2.2

/-- C4 (confirmed).  For every input state — including states with
empty VIP, LRR and other pools — `_generate_batches` returns exactly 50
rows for MM, 50 for PB and 50 for each of the three IL tiers; the
padding fallback guarantees a row on every loop iteration, so degenerate
pools never shorten a batch. -/
theorem c4_batches_have_size_50 (state : LotState) (r : Rng) :
    ((_generate_batches state r).1.MM).length = 50
  ∧ ((_generate_batches state r).1.PB).length = 50
  ∧ ((_generate_batches state r).1.IL_JP).length = 50
  ∧ ((_generate_batches state r).1.IL_M1).length = 50
  ∧ ((_generate_batches state r).1.IL_M2).length = 50 := by
  refine ⟨?_, ?_, ?_, ?_, ?_⟩ <;>
  · simp only [_generate_batches]
    rw [genRowsAux_length]

/-- C5 (corrected, amended).  Tickets produced by pattern generation
(`_make_row_with_pattern` returning a row) always have their main-sum in
the closed band; the claim fails for the fallback tickets, which the
code draws uniformly without any band check.  Amended claim: every
pattern-generated ticket has its main-sum within `[lo, hi]`; the random
padding fallback is unconstrained and may fall outside the band. -/
theorem c5_pattern_rows_respect_band (game : String) (pat : Pattern) (pools : Pools)
    (count : Nat) (band : Int × Int) (umax : Int) (tries : Nat) (r : Rng)
    (row : List Int)
    (h : (_make_row_with_pattern game pat pools count band umax tries r).1 = some row) :
    band.1 ≤ row.sum ∧ row.sum ≤ band.2 :=
  ⟨(_make_row_with_pattern_some_spec game pat pools count band umax tries r row h).2.2.2.2.1,
   (_make_row_with_pattern_some_spec game pat pools count band umax tries r row h).2.2.2.2.2⟩

/-- C5 witness: on `c5WitnessPools` the pattern `(1,0,0,0)` produces the
row `[1,2,3,4,5]`, whose sum 15 lies inside the band `[1, 100]`. -/
theorem c5_witness :
    (_make_row_with_pattern "MM" (1, 0, 0, 0) c5WitnessPools 5 (1, 100) 70 50 rng0).1
      = some [1, 2, 3, 4, 5]
  ∧ (1 : Int) ≤ ([1, 2, 3, 4, 5] : List Int).sum
  ∧ ([1, 2, 3, 4, 5] : List Int).sum ≤ 100 := by
  have h : (_make_row_with_pattern "MM" (1, 0, 0, 0) c5WitnessPools 5 (1, 100) 70 50 rng0).1
      = some [1, 2, 3, 4, 5] := by decide
  have h2 := c5_pattern_rows_respect_band "MM" (1, 0, 0, 0) c5WitnessPools 5 (1, 100) 70 50
    rng0 [1, 2, 3, 4, 5] h
  exact ⟨h, h2.1, h2.2⟩

set_option maxRecDepth 100000 in
set_option maxHeartbeats 2000000 in
/-- C5 counterexample: on `c5BadState` (MM band `[1,1]`, empty pools)
pattern generation always fails, so the first MM row of the generated
batch is a uniformly random fallback ticket, and its main-sum lies
outside the band `[1, 1]` used for the game. -/
theorem c5_counterexample :
    c5BadState.BANDS.MM = (1, 1)
  ∧ ((_generate_batches c5BadState rng0).1.MM).isEmpty = false
  ∧ ¬ ((1 : Int) ≤ ((_generate_batches c5BadState rng0).1.MM.headD row0).sum
        ∧ ((_generate_batches c5BadState rng0).1.MM.headD row0).sum ≤ 1) :=
  ⟨rfl, rfl, by decide⟩

/-- C6 (confirmed).  In every generated batch, every ticket has exactly
`k` pairwise-distinct mains within `[1, main_max]` (k = 5 for MM/PB,
6 for IL), and for the bonus-bearing games the bonus chosen by
`_choose_bonus` lies within `[1, bonus_max]` (IL rows carry no bonus);
this covers pattern-generated tickets and fallback-random tickets. -/
theorem c6_tickets_well_formed (state : LotState) (r : Rng) :
    ((_generate_batches state r).1.MM).Forall (fun rw =>
      rw.mains.length = MM_MAIN_COUNT ∧ rw.mains.Nodup
      ∧ (∀ x ∈ rw.mains, 1 ≤ x ∧ x ≤ (MM_MAIN_MAX : Int))
      ∧ ∃ bn, rw.bonus = some bn ∧ 1 ≤ bn ∧ bn ≤ MM_BONUS_MAX)
  ∧ ((_generate_batches state r).1.PB).Forall (fun rw =>
      rw.mains.length = PB_MAIN_COUNT ∧ rw.mains.Nodup
      ∧ (∀ x ∈ rw.mains, 1 ≤ x ∧ x ≤ (PB_MAIN_MAX : Int))
      ∧ ∃ bn, rw.bonus = some bn ∧ 1 ≤ bn ∧ bn ≤ PB_BONUS_MAX)
  ∧ ((_generate_batches state r).1.IL_JP).Forall (fun rw =>
      rw.mains.length = IL_MAIN_COUNT ∧ rw.mains.Nodup
      ∧ (∀ x ∈ rw.mains, 1 ≤ x ∧ x ≤ (IL_MAIN_MAX : Int)) ∧ rw.bonus = none)
  ∧ ((_generate_batches state r).1.IL_M1).Forall (fun rw =>
      rw.mains.length = IL_MAIN_COUNT ∧ rw.mains.Nodup
      ∧ (∀ x ∈ rw.mains, 1 ≤ x ∧ x ≤ (IL_MAIN_MAX : Int)) ∧ rw.bonus = none)
  ∧ ((_generate_batches state r).1.IL_M2).Forall (fun rw =>
      rw.mains.length = IL_MAIN_COUNT ∧ rw.mains.Nodup
      ∧ (∀ x ∈ rw.mains, 1 ≤ x ∧ x ≤ (IL_MAIN_MAX : Int)) ∧ rw.bonus = none) := by
  simp only [_generate_batches]
  refine ⟨?_, ?_, ?_, ?_, ?_⟩
  · refine List.Forall.imp ?_ (genRowsAux_forall _ _ _ _ _ _ _ (by decide)
      (fun b => ∃ bn, b = some bn ∧ 1 ≤ bn ∧ bn ≤ MM_BONUS_MAX)
      (fun rr => ⟨_, rfl, _choose_bonus_range _ _ _ _ rr (by decide)⟩) 50 0 _)
    intro rw hx
    exact ⟨hx.1, hx.2.1, hx.2.2.2.1, hx.2.2.2.2⟩
  · refine List.Forall.imp ?_ (genRowsAux_forall _ _ _ _ _ _ _ (by decide)
      (fun b => ∃ bn, b = some bn ∧ 1 ≤ bn ∧ bn ≤ PB_BONUS_MAX)
      (fun rr => ⟨_, rfl, _choose_bonus_range _ _ _ _ rr (by decide)⟩) 50 0 _)
    intro rw hx
    exact ⟨hx.1, hx.2.1, hx.2.2.2.1, hx.2.2.2.2⟩
  all_goals
    refine List.Forall.imp ?_ (genRowsAux_forall _ _ _ _ _ _ _ (by decide)
      (fun b => b = none) (fun _ => rfl) 50 0 _)
  all_goals
    intro rw hx
    exact ⟨hx.1, hx.2.1, hx.2.2.2.1, hx.2.2.2.2⟩

/-- C10 (confirmed).  Every mains list the core emits is sorted in
strictly increasing order (hence duplicate-free): every row of the
batches generated for Phase 1 and inside the Phase-2 loop (both are
`_generate_batches` output), and every ticket of the Phase-2 buy lists. -/
theorem c10_mains_strictly_increasing (state : LotState) (r : Rng) (p1 : Phase1Saved)
    (n : Nat) (r2 : Rng) :
    ((_generate_batches state r).1.MM).Forall (fun rw => rw.mains.Pairwise (· < ·))
  ∧ ((_generate_batches state r).1.PB).Forall (fun rw => rw.mains.Pairwise (· < ·))
  ∧ ((_generate_batches state r).1.IL_JP).Forall (fun rw => rw.mains.Pairwise (· < ·))
  ∧ ((_generate_batches state r).1.IL_M1).Forall (fun rw => rw.mains.Pairwise (· < ·))
  ∧ ((_generate_batches state r).1.IL_M2).Forall (fun rw => rw.mains.Pairwise (· < ·))
  ∧ phase2BuyStrict (run_phase2_core p1 n r2) := by
  refine ⟨?_, ?_, ?_, ?_, ?_, run_phase2_core_buy_strict p1 n r2⟩ <;>
  · simp only [_generate_batches]
    refine List.Forall.imp ?_ (genRowsAux_forall _ _ _ _ _ _ _ (by decide)
      (fun _ => True) (fun _ => trivial) 50 0 _)
    intro rw hx
    exact hx.2.2.1
